import Mathlib

/-!
Shallow embedding of the bilbot dashboard client (`frontend/app.js`):
HTML escaping, message rendering with canonical/legacy field fallback,
pagination bookkeeping, API query-string construction, fetch-failure
handling, and stats normalization/sorting for the charts.

JavaScript strings are modelled as Lean `String`/`List Char`; `null` and
`undefined` record fields are modelled as `Option`; the browser `Date`
parsing and locale formatting APIs are parameters (`parseDate`,
`dateVal`), since they are external to the program.
-/

namespace Bilbot

/-- The double-quote character (char code 34). -/
def dquoteC : Char := Char.ofNat 34

/-- The single-quote character (char code 39). -/
def squoteC : Char := Char.ofNat 39

/-- The entity `escapeHTML` substitutes for an ampersand. -/
def ampEnt : List Char := ['&', 'a', 'm', 'p', ';']

/-- The entity `escapeHTML` substitutes for a less-than sign. -/
def ltEnt : List Char := ['&', 'l', 't', ';']

/-- The entity `escapeHTML` substitutes for a greater-than sign. -/
def gtEnt : List Char := ['&', 'g', 't', ';']

/-- The entity `escapeHTML` substitutes for a double quote. -/
def quotEnt : List Char := ['&', 'q', 'u', 'o', 't', ';']

/-- The entity `escapeHTML` substitutes for a single quote. -/
def aposEnt : List Char := ['&', '#', '0', '3', '9', ';']

/-- One `String.prototype.replace` pass with a global single-character
pattern: every occurrence of `c` is replaced by `rep`. -/
def replaceAllChar (c : Char) (rep : List Char) : List Char → List Char
  | [] => []
  | x :: xs => (if x = c then rep else [x]) ++ replaceAllChar c rep xs

/-- The five chained `.replace` calls of `escapeHTML`, in source order:
`&` first, then `<`, `>`, the double quote, and the single quote. -/
def escChars (s : List Char) : List Char :=
  replaceAllChar squoteC aposEnt
    (replaceAllChar dquoteC quotEnt
      (replaceAllChar '>' gtEnt
        (replaceAllChar '<' ltEnt
          (replaceAllChar '&' ampEnt s))))

/-- `escapeHTML` from `frontend/app.js`: a falsy argument (here: the empty
string) yields the empty string, otherwise the five replacements run. -/
def escapeHTML (s : String) : String :=
  if s = "" then "" else String.mk (escChars s.data)

/-- The per-character effect of the whole replacement chain. -/
def escChar (c : Char) : List Char :=
  if c = '&' then ampEnt
  else if c = '<' then ltEnt
  else if c = '>' then gtEnt
  else if c = dquoteC then quotEnt
  else if c = squoteC then aposEnt
  else [c]

/-- `escChar` applied characterwise. -/
def flatEsc : List Char → List Char
  | [] => []
  | c :: cs => escChar c ++ flatEsc cs

/-- A character list is well-escaped when it contains no `<`, `>`, double
quote or single quote at all, and every `&` begins one of the five
entities `escapeHTML` emits. -/
def wellEscaped : List Char → Bool
  | [] => true
  | c :: rest =>
    if c = '&' then
      if rest.take 4 = ['a', 'm', 'p', ';'] then wellEscaped (rest.drop 4)
      else if rest.take 3 = ['l', 't', ';'] then wellEscaped (rest.drop 3)
      else if rest.take 3 = ['g', 't', ';'] then wellEscaped (rest.drop 3)
      else if rest.take 5 = ['q', 'u', 'o', 't', ';'] then wellEscaped (rest.drop 5)
      else if rest.take 5 = ['#', '0', '3', '9', ';'] then wellEscaped (rest.drop 5)
      else false
    else !(c == '<' || c == '>' || c == dquoteC || c == squoteC) && wellEscaped rest
termination_by l => l.length
decreasing_by all_goals (simp; try omega)

/-- A message record as consumed by `renderMessages`: each concept may be
present under its canonical key, its alternate-language key, both, or
neither (`none` models a missing/`null`/`undefined` field). -/
structure Msg where
  author : Option String := none
  autor : Option String := none
  channel : Option String := none
  kanal : Option String := none
  content : Option String := none
  inhalt : Option String := none
  timestamp : Option String := none
  zeitstempel : Option String := none
deriving DecidableEq, Repr

/-- The four text slots of one rendered message card. -/
structure Card where
  author : String
  channel : String
  content : String
  timestamp : String
deriving DecidableEq, Repr

/-- `message.author ?? message.autor ?? 'Unbekannt'`. -/
def selectAuthor (m : Msg) : String := m.author.getD (m.autor.getD "Unbekannt")

/-- `message.channel ?? message.kanal ?? 'Unbekannt'`. -/
def selectChannel (m : Msg) : String := m.channel.getD (m.kanal.getD "Unbekannt")

/-- `message.content ?? message.inhalt ?? ''`. -/
def selectContent (m : Msg) : String := m.content.getD (m.inhalt.getD "")

/-- `message.timestamp ?? message.zeitstempel ?? ''`. -/
def selectTimestampRaw (m : Msg) : String := m.timestamp.getD (m.zeitstempel.getD "")

/-- The timestamp branch of `renderMessages`: an empty raw value renders
as the empty string; a parseable one renders via the locale formatter
(`parseDate` returns its localized text); an unparseable one falls back
to the escaped raw string. -/
def renderTimestamp (parseDate : String → Option String) (raw : String) : String :=
  if raw = "" then ""
  else
    match parseDate raw with
    | some loc => loc
    | none => escapeHTML raw

/-- The card `renderMessages` builds for one record: author, channel and
content are escaped; the timestamp goes through `renderTimestamp`. -/
def renderCard (parseDate : String → Option String) (m : Msg) : Card :=
  { author := escapeHTML (selectAuthor m)
    channel := escapeHTML (selectChannel m)
    content := escapeHTML (selectContent m)
    timestamp := renderTimestamp parseDate (selectTimestampRaw m) }

/-- `renderMessages`: clears the container and appends one card per record. -/
def renderMessages (parseDate : String → Option String) (messages : List Msg) : List Card :=
  messages.map (renderCard parseDate)

/-- `const pageSize = 20`. -/
def pageSize : Nat := 20

/-- What the messages list shows after a load: the empty-state paragraph
or the rendered cards. -/
inductive MessagesDisplay
  | emptyState (text : String)
  | cards (cs : List Card)
deriving DecidableEq, Repr

/-- The UI state `loadMessages` writes: list contents, both pagination
buttons, and the page-info label. -/
structure MessagesView where
  display : MessagesDisplay
  nextDisabled : Bool
  prevDisabled : Bool
  pageInfo : String
deriving DecidableEq, Repr

/-- The result-processing tail of `loadMessages`, applied to the value
`fetchAPI` resolved to (`none` models the null failure sentinel). -/
def loadMessagesUpdate (parseDate : String → Option String) (currentPage : Nat)
    (messages : Option (List Msg)) : MessagesView :=
  let dn : MessagesDisplay × Bool :=
    match messages with
    | none => (.emptyState "Keine Nachrichten gefunden.", true)
    | some ms =>
      if ms.length = 0 then (.emptyState "Keine Nachrichten gefunden.", true)
      else (.cards (renderMessages parseDate ms), decide (ms.length < pageSize))
  { display := dn.1
    nextDisabled := dn.2
    prevDisabled := decide (currentPage = 1)
    pageInfo := "Seite " ++ toString currentPage }

/-- A JavaScript value as it may appear in a `fetchAPI` params object. -/
inductive JsVal
  | nullv
  | undef
  | str (s : String)
  | num (n : Nat)
deriving DecidableEq, Repr

/-- The guard in `fetchAPI`: a value is appended to the query string iff
it is not `null`, not `undefined` and not the empty string (a number,
even `0`, always passes the strict `!== ''` comparison). -/
def JsVal.isValidParam : JsVal → Bool
  | .nullv => false
  | .undef => false
  | .str s => s != ""
  | .num _ => true

/-- The string `URLSearchParams.append` receives for a value. -/
def JsVal.render : JsVal → String
  | .nullv => "null"
  | .undef => "undefined"
  | .str s => s
  | .num n => toString n

/-- The query-string construction loop of `fetchAPI`: keep the valid
entries in object-key order, rendered to strings. -/
def buildQueryParams (params : List (String × JsVal)) : List (String × String) :=
  (params.filter fun p => p.2.isValidParam).map fun p => (p.1, p.2.render)

/-- One HTTP GET issued through `fetchAPI`: endpoint plus the query
parameters that survive the validity filter. -/
structure ApiRequest where
  endpoint : String
  params : List (String × String)
deriving DecidableEq, Repr

/-- The single listing request `loadMessages` issues for the current
page: `/messages` with `limit = pageSize` and
`offset = (currentPage - 1) * pageSize`. -/
def loadMessagesRequest (currentPage : Nat) : ApiRequest :=
  { endpoint := "/messages"
    params := buildQueryParams
      [("limit", .num pageSize), ("offset", .num ((currentPage - 1) * pageSize))] }

/-- The params object `searchMessages` builds: `q` and `limit`
unconditionally, `channel` and `author` only when truthy (nonempty). -/
def searchMessagesParams (q channel author limit : String) : List (String × JsVal) :=
  [("q", .str q), ("limit", .str limit)]
    ++ (if channel != "" then [("channel", JsVal.str channel)] else [])
    ++ (if author != "" then [("author", JsVal.str author)] else [])

/-- The search request `searchMessages` issues through `fetchAPI`. -/
def searchMessagesRequest (q channel author limit : String) : ApiRequest :=
  { endpoint := "/messages/search"
    params := buildQueryParams (searchMessagesParams q channel author limit) }

/-- The result-processing tail of `searchMessages`. -/
def searchMessagesUpdate (parseDate : String → Option String)
    (results : Option (List Msg)) : MessagesDisplay :=
  match results with
  | none => .emptyState "Keine Ergebnisse gefunden."
  | some rs =>
    if rs.length = 0 then .emptyState "Keine Ergebnisse gefunden."
    else .cards (renderMessages parseDate rs)

/-- What the network hands back to `fetchAPI`: either the fetch promise
rejects (network error, or a thrown parse error), or a response with a
status code and a decoded body arrives. -/
inductive FetchOutcome (α : Type)
  | transportError
  | response (status : Nat) (body : α)

/-- The try/catch of `fetchAPI`: a transport error or a non-ok status
(`response.ok` is status 200–299) is caught and becomes the null
sentinel; an ok response yields its body. -/
def fetchAPIResult {α : Type} : FetchOutcome α → Option α
  | .transportError => none
  | .response status body =>
    if 200 ≤ status ∧ status < 300 then some body else none

/-- The three user actions that change or reuse the page counter. -/
inductive PageOp
  | next
  | prev
  | refresh
deriving DecidableEq, Repr

/-- The click handlers: next increments unconditionally, prev decrements
only when the page exceeds 1, refresh leaves the counter alone. -/
def applyPageOp (currentPage : Nat) : PageOp → Nat
  | .next => currentPage + 1
  | .prev => if currentPage > 1 then currentPage - 1 else currentPage
  | .refresh => currentPage

/-- The page counter after a sequence of actions, starting from the
initial `let currentPage = 1`. -/
def runPageOps (ops : List PageOp) : Nat :=
  ops.foldl applyPageOp 1

/-- One name/count pair as charted for channels and authors. -/
structure NamedCount where
  name : String
  count : Nat
deriving DecidableEq, Repr

/-- One date/count pair as charted for messages per day. -/
structure DatedCount where
  date : String
  count : Nat
deriving DecidableEq, Repr

/-- A name-keyed stats field as it may arrive: already an array of pairs,
a plain object (its `Object.entries` list), or absent (`null`/missing,
which `|| {}` turns into the empty object). -/
inductive NamedField
  | arr (pairs : List NamedCount)
  | obj (entries : List (String × Nat))
  | absent
deriving DecidableEq, Repr

/-- A date-keyed stats field in the same three shapes. -/
inductive DatedField
  | arr (pairs : List DatedCount)
  | obj (entries : List (String × Nat))
  | absent
deriving DecidableEq, Repr

/-- The `Array.isArray(...) ? ... : Object.entries(... || {}).map(...)`
normalization for `channels` and `authors`. -/
def normalizeNamed : NamedField → List NamedCount
  | .arr ps => ps
  | .obj es => es.map fun e => ⟨e.1, e.2⟩
  | .absent => []

/-- The same normalization for `messages_per_day`, keyed by date. -/
def normalizeDated : DatedField → List DatedCount
  | .arr ps => ps
  | .obj es => es.map fun e => ⟨e.1, e.2⟩
  | .absent => []

/-- `timeData.sort((a, b) => new Date(a.date) - new Date(b.date))`:
a comparison sort by the numeric date value (`dateVal` models the epoch
value `new Date` assigns to a date string). -/
def sortTimeData (dateVal : String → Int) (timeData : List DatedCount) : List DatedCount :=
  timeData.insertionSort fun a b => dateVal a.date ≤ dateVal b.date

/-- The `/messages/stats` payload shape `loadStats` consumes. -/
structure Stats where
  total_messages : Option Nat := none
  channels : NamedField := .absent
  authors : NamedField := .absent
  messages_per_day : DatedField := .absent
deriving DecidableEq, Repr

/-- The stats display: the total-count text and the data each of the
three chart instances was last built from (`none` = never built). -/
structure StatsView where
  totalMessages : String
  channelsChart : Option (List NamedCount)
  authorsChart : Option (List NamedCount)
  timeChart : Option (List DatedCount)
deriving DecidableEq, Repr

/-- `loadStats` as a transformer of the stats display state: on the null
sentinel it returns before touching anything; otherwise it writes the
total, normalizes the three fields, sorts the time series, and rebuilds
all three charts. -/
def loadStatsUpdate (dateVal : String → Int) (prev : StatsView)
    (stats : Option Stats) : StatsView :=
  match stats with
  | none => prev
  | some st =>
    { totalMessages := toString (st.total_messages.getD 0)
      channelsChart := some (normalizeNamed st.channels)
      authorsChart := some (normalizeNamed st.authors)
      timeChart := some (sortTimeData dateVal (normalizeDated st.messages_per_day)) }

/-- The record of the field-fallback scenario: `author` null, `autor`
"Alice", content `<b>hi</b>`. -/
def aliceRecord : Msg := { autor := some "Alice", content := some "<b>hi</b>" }

/-! ### Helper lemmas about the escaping chain -/

theorem replaceAllChar_append (c : Char) (rep : List Char) (xs ys : List Char) :
    replaceAllChar c rep (xs ++ ys) = replaceAllChar c rep xs ++ replaceAllChar c rep ys := by
  induction xs with
  | nil => simp [replaceAllChar]
  | cons x xs ih => simp [replaceAllChar, ih]

theorem escChars_append (xs ys : List Char) :
    escChars (xs ++ ys) = escChars xs ++ escChars ys := by
  simp [escChars, replaceAllChar_append]

theorem escChars_single (x : Char) : escChars [x] = escChar x := by
  by_cases h1 : x = '&'
  · subst h1; decide
  by_cases h2 : x = '<'
  · subst h2; decide
  by_cases h3 : x = '>'
  · subst h3; decide
  by_cases h4 : x = dquoteC
  · subst h4; decide
  by_cases h5 : x = squoteC
  · subst h5; decide
  simp [escChars, replaceAllChar, escChar, h1, h2, h3, h4, h5]

theorem escChars_eq_flatEsc (l : List Char) : escChars l = flatEsc l := by
  induction l with
  | nil => decide
  | cons c cs ih =>
    have hcons : c :: cs = [c] ++ cs := rfl
    rw [hcons, escChars_append, escChars_single, ih]
    rfl

theorem wellEscaped_nil : wellEscaped [] = true := by
  rw [wellEscaped]

theorem wellEscaped_amp (r : List Char) :
    wellEscaped ('&' :: 'a' :: 'm' :: 'p' :: ';' :: r) = wellEscaped r := by
  rw [wellEscaped]; simp

theorem wellEscaped_lt (r : List Char) :
    wellEscaped ('&' :: 'l' :: 't' :: ';' :: r) = wellEscaped r := by
  rw [wellEscaped]; simp

theorem wellEscaped_gt (r : List Char) :
    wellEscaped ('&' :: 'g' :: 't' :: ';' :: r) = wellEscaped r := by
  rw [wellEscaped]; simp

theorem wellEscaped_quot (r : List Char) :
    wellEscaped ('&' :: 'q' :: 'u' :: 'o' :: 't' :: ';' :: r) = wellEscaped r := by
  rw [wellEscaped]; simp

theorem wellEscaped_apos (r : List Char) :
    wellEscaped ('&' :: '#' :: '0' :: '3' :: '9' :: ';' :: r) = wellEscaped r := by
  rw [wellEscaped]; simp

theorem wellEscaped_other (c : Char) (r : List Char) (h : ¬ c = '&') :
    wellEscaped (c :: r)
      = (!(c == '<' || c == '>' || c == dquoteC || c == squoteC) && wellEscaped r) := by
  rw [wellEscaped, if_neg h]

theorem wellEscaped_escChar_append (c : Char) (t : List Char)
    (ht : wellEscaped t = true) : wellEscaped (escChar c ++ t) = true := by
  by_cases h1 : c = '&'
  · subst h1
    rw [show escChar '&' = ampEnt from by simp [escChar]]
    show wellEscaped ('&' :: 'a' :: 'm' :: 'p' :: ';' :: t) = true
    rw [wellEscaped_amp]; exact ht
  by_cases h2 : c = '<'
  · subst h2
    rw [show escChar '<' = ltEnt from by simp [escChar]]
    show wellEscaped ('&' :: 'l' :: 't' :: ';' :: t) = true
    rw [wellEscaped_lt]; exact ht
  by_cases h3 : c = '>'
  · subst h3
    rw [show escChar '>' = gtEnt from by simp [escChar]]
    show wellEscaped ('&' :: 'g' :: 't' :: ';' :: t) = true
    rw [wellEscaped_gt]; exact ht
  by_cases h4 : c = dquoteC
  · subst h4
    rw [show escChar dquoteC = quotEnt from by simp [escChar, dquoteC, squoteC]]
    show wellEscaped ('&' :: 'q' :: 'u' :: 'o' :: 't' :: ';' :: t) = true
    rw [wellEscaped_quot]; exact ht
  by_cases h5 : c = squoteC
  · subst h5
    rw [show escChar squoteC = aposEnt from by simp [escChar, dquoteC, squoteC]]
    show wellEscaped ('&' :: '#' :: '0' :: '3' :: '9' :: ';' :: t) = true
    rw [wellEscaped_apos]; exact ht
  rw [show escChar c = [c] from by simp [escChar, h1, h2, h3, h4, h5]]
  show wellEscaped (c :: t) = true
  rw [wellEscaped_other c t h1]
  simp [ht, h2, h3, h4, h5]

theorem wellEscaped_flatEsc (l : List Char) : wellEscaped (flatEsc l) = true := by
  induction l with
  | nil => exact wellEscaped_nil
  | cons c cs ih => exact wellEscaped_escChar_append c _ ih

theorem escapeHTML_data (s : String) : (escapeHTML s).data = flatEsc s.data := by
  unfold escapeHTML
  by_cases h : s = ""
  · subst h; rfl
  · simp [h, escChars_eq_flatEsc]

theorem wellEscaped_escapeHTML (s : String) : wellEscaped (escapeHTML s).data = true := by
  rw [escapeHTML_data]
  exact wellEscaped_flatEsc _

/-- An injection probe containing all five characters the escaper must
neutralize. -/
def scriptProbe : String :=
  String.mk ['<', 's', 'c', 'r', 'i', 'p', 't', '>', '&', dquoteC, squoteC]

/-- A concrete date valuation (epoch-style ordering) for the January 2024
scenario dates. -/
def dateVal0 (s : String) : Int :=
  if s = "2024-01-01" then 1
  else if s = "2024-01-02" then 2
  else if s = "2024-01-03" then 3
  else 0

/-! ### Claim theorems -/

/-- C1: `escapeHTML` performs exactly the five entity replacements of the
source, ampersand first (its output equals the per-character map
`escChar` applied characterwise), and consequently its output — and
every escaped user-content slot of a rendered card: author, channel,
content, and the raw-timestamp fallback — is well-escaped: it contains
no literal angle bracket or quote character, and every ampersand starts
one of the five emitted entities. -/
theorem escapeHTML_exactly_escapes (s : String) (parseDate : String → Option String) (m : Msg) :
    (escapeHTML s).data = flatEsc s.data
      ∧ wellEscaped (escapeHTML s).data = true
      ∧ wellEscaped (renderCard parseDate m).author.data = true
      ∧ wellEscaped (renderCard parseDate m).channel.data = true
      ∧ wellEscaped (renderCard parseDate m).content.data = true
      ∧ (parseDate (selectTimestampRaw m) = none →
          wellEscaped (renderCard parseDate m).timestamp.data = true) := by
  refine ⟨escapeHTML_data s, wellEscaped_escapeHTML s, wellEscaped_escapeHTML _,
    wellEscaped_escapeHTML _, wellEscaped_escapeHTML _, ?_⟩
  intro hp
  show wellEscaped (renderTimestamp parseDate (selectTimestampRaw m)).data = true
  unfold renderTimestamp
  by_cases hr : selectTimestampRaw m = ""
  · rw [if_pos hr]; exact wellEscaped_nil
  · rw [if_neg hr, hp]; exact wellEscaped_escapeHTML _

/-- C1 witness: the probe string and the concrete record, with an
unparseable-timestamp formatter. -/
theorem escapeHTML_exactly_escapes_witness :
    wellEscaped (escapeHTML scriptProbe).data = true
      ∧ wellEscaped (renderCard (fun _ => none) aliceRecord).content.data = true
      ∧ wellEscaped (renderCard (fun _ => none) aliceRecord).timestamp.data = true :=
  ⟨(escapeHTML_exactly_escapes scriptProbe (fun _ => none) aliceRecord).2.1,
   (escapeHTML_exactly_escapes scriptProbe (fun _ => none) aliceRecord).2.2.2.2.1,
   (escapeHTML_exactly_escapes scriptProbe (fun _ => none) aliceRecord).2.2.2.2.2 rfl⟩

/-- C2: after a page of records is processed by `loadMessages`, the next
button is disabled iff the page holds strictly fewer records than
`pageSize`. -/
theorem nextDisabled_iff_short_page (parseDate : String → Option String)
    (p : Nat) (ms : List Msg) :
    ((loadMessagesUpdate parseDate p (some ms)).nextDisabled = true)
      ↔ ms.length < pageSize := by
  by_cases h : ms.length = 0
  · simp [loadMessagesUpdate, h, pageSize]
  · simp [loadMessagesUpdate, h]

/-- C2 witness: a full page of twenty blank records at page 1. -/
theorem nextDisabled_iff_short_page_witness :
    ((loadMessagesUpdate (fun _ => none) 1
        (some (List.replicate 20 {}))).nextDisabled = true)
      ↔ (List.replicate 20 ({} : Msg)).length < pageSize :=
  nextDisabled_iff_short_page (fun _ => none) 1 (List.replicate 20 {})

/-- C3: for a current page N ≥ 1 the single listing request targets
`/messages` with limit `pageSize` and offset `(N-1)*pageSize`, and the
request for page N+1 starts exactly `pageSize` records later, so the
offset windows are contiguous and non-overlapping. -/
theorem loadMessagesRequest_window (N : Nat) (h : 1 ≤ N) :
    (loadMessagesRequest N).endpoint = "/messages"
      ∧ (loadMessagesRequest N).params
          = [("limit", toString pageSize), ("offset", toString ((N - 1) * pageSize))]
      ∧ (loadMessagesRequest (N + 1)).params
          = [("limit", toString pageSize),
             ("offset", toString ((N - 1) * pageSize + pageSize))] := by
  have harith : N * pageSize = (N - 1) * pageSize + pageSize := by
    simp only [pageSize]
    omega
  refine ⟨rfl, ?_, ?_⟩
  · simp [loadMessagesRequest, buildQueryParams, JsVal.isValidParam, JsVal.render]
  · simp [loadMessagesRequest, buildQueryParams, JsVal.isValidParam, JsVal.render, harith]

/-- C3 witness at page 3. -/
theorem loadMessagesRequest_window_witness :
    (loadMessagesRequest 3).endpoint = "/messages"
      ∧ (loadMessagesRequest 3).params
          = [("limit", toString pageSize), ("offset", toString ((3 - 1) * pageSize))]
      ∧ (loadMessagesRequest 4).params
          = [("limit", toString pageSize),
             ("offset", toString ((3 - 1) * pageSize + pageSize))] :=
  loadMessagesRequest_window 3 (by decide)

/-- C5: a transport error and a non-success status both collapse to the
null sentinel at the `fetchAPI` boundary (a success status yields the
body), and each message-list caller shows the same empty-state display
for a null result as for an empty successful result. -/
theorem fetch_failure_null_and_empty_state (parseDate : String → Option String)
    (p : Nat) (s : Nat) (b : List Msg) :
    fetchAPIResult (α := List Msg) .transportError = none
      ∧ (¬ (200 ≤ s ∧ s < 300) → fetchAPIResult (.response s b) = none)
      ∧ ((200 ≤ s ∧ s < 300) → fetchAPIResult (.response s b) = some b)
      ∧ (loadMessagesUpdate parseDate p none).display
          = (loadMessagesUpdate parseDate p (some [])).display
      ∧ searchMessagesUpdate parseDate none = searchMessagesUpdate parseDate (some []) := by
  refine ⟨rfl, ?_, ?_, rfl, rfl⟩
  · intro hns; simp [fetchAPIResult, hns]
  · intro hok; simp [fetchAPIResult, hok]

/-- C5 witness: a 500 response and a 200 response with an empty body. -/
theorem fetch_failure_null_and_empty_state_witness :
    fetchAPIResult (α := List Msg) (.response 500 []) = none
      ∧ fetchAPIResult (α := List Msg) (.response 200 []) = some [] :=
  ⟨(fetch_failure_null_and_empty_state (fun _ => none) 1 500 []).2.1 (by decide),
   (fetch_failure_null_and_empty_state (fun _ => none) 1 200 []).2.2.1 (by decide)⟩

/-- C7: the stats normalizer maps the array form and the mapping form of
the same aggregate data to the same pair sequence, for the name-keyed
fields (channels, authors) and the date-keyed field (messages per day)
alike; in particular the singleton mapping normalizes to the singleton
pair list. -/
theorem normalize_array_obj_agree (ps : List NamedCount) (es : List (String × Nat))
    (ds : List DatedCount) (ts : List (String × Nat)) :
    normalizeNamed (.arr ps) = ps
      ∧ normalizeDated (.arr ds) = ds
      ∧ normalizeNamed (.arr (es.map fun e => ⟨e.1, e.2⟩)) = normalizeNamed (.obj es)
      ∧ normalizeDated (.arr (ts.map fun e => ⟨e.1, e.2⟩)) = normalizeDated (.obj ts)
      ∧ normalizeNamed (.obj [("a", 3)]) = [⟨"a", 3⟩] :=
  ⟨rfl, rfl, rfl, rfl, rfl⟩

/-- C9: starting from page 1, every sequence of next/prev/refresh actions
keeps the 1-based page counter at least 1, and the prev button is
disabled exactly when the current page is 1. -/
theorem page_counter_invariant (ops : List PageOp) (parseDate : String → Option String)
    (p : Nat) (r : Option (List Msg)) :
    1 ≤ runPageOps ops
      ∧ (((loadMessagesUpdate parseDate p r).prevDisabled = true) ↔ p = 1) := by
  constructor
  · have hfold : ∀ (l : List PageOp) (q : Nat), 1 ≤ q → 1 ≤ l.foldl applyPageOp q := by
      intro l
      induction l with
      | nil => intro q hq; simpa using hq
      | cons op rest ih =>
        intro q hq
        apply ih
        cases op with
        | next => show 1 ≤ q + 1; omega
        | prev =>
          show 1 ≤ if q > 1 then q - 1 else q
          split <;> omega
        | refresh => exact hq
    exact hfold ops 1 le_rfl
  · cases r <;> simp [loadMessagesUpdate]

/-- C9 witness: a concrete action sequence that tries to underflow. -/
theorem page_counter_invariant_witness :
    1 ≤ runPageOps [.next, .next, .prev, .prev, .prev, .refresh]
      ∧ (((loadMessagesUpdate (fun _ => none) 1 none).prevDisabled = true)
          ↔ (1 : Nat) = 1) :=
  page_counter_invariant [.next, .next, .prev, .prev, .prev, .refresh]
    (fun _ => none) 1 none

/-- C10: when the stats fetch resolves to the null sentinel, `loadStats`
returns before any update: the total-count text and the three chart
states are exactly what they were before the call. -/
theorem loadStats_null_no_update (dateVal : String → Int) (prev : StatsView) :
    loadStatsUpdate dateVal prev none = prev := rfl

theorem mem_keys_buildQueryParams (s : String) (L : List (String × JsVal)) :
    (s ∈ (buildQueryParams L).map Prod.fst)
      ↔ ∃ v, (s, v) ∈ L ∧ v.isValidParam = true := by
  constructor
  · intro hmem
    simp only [buildQueryParams, List.map_map, List.mem_map, List.mem_filter,
      Function.comp] at hmem
    obtain ⟨⟨k, v⟩, ⟨hin, hval⟩, hk⟩ := hmem
    refine ⟨v, ?_, hval⟩
    have hks : k = s := hk
    rwa [hks] at hin
  · rintro ⟨v, hin, hval⟩
    simp only [buildQueryParams, List.map_map, List.mem_map, List.mem_filter,
      Function.comp]
    exact ⟨(s, v), ⟨hin, hval⟩, rfl⟩

/-- C4 counterexample: a search issued with q empty produces a query
string containing no q parameter at all, because `fetchAPI` filters out
the empty-string value like any other. -/
theorem emptyQuery_omits_q :
    "q" ∉ (searchMessagesRequest "" "" "" "50").params.map Prod.fst := by
  decide

/-- C4 (amended): q is included unconditionally in the params object that
`searchMessages` passes to `fetchAPI` — unlike channel and author, which
are added only when nonempty — but `fetchAPI` then omits every
empty-string-valued parameter from the query string, q included; so an
empty q is NOT sent as a query parameter, while a nonempty q always is. -/
theorem q_param_asymmetry (q channel author limit : String) :
    ("q", JsVal.str q) ∈ searchMessagesParams q channel author limit
      ∧ (channel = "" →
          ∀ v, ("channel", v) ∉ searchMessagesParams q channel author limit)
      ∧ (q = "" →
          "q" ∉ (searchMessagesRequest q channel author limit).params.map Prod.fst)
      ∧ (q ≠ "" →
          ("q", q) ∈ (searchMessagesRequest q channel author limit).params) := by
  refine ⟨?_, ?_, ?_, ?_⟩
  · simp [searchMessagesParams]
  · intro hch v hmem
    subst hch
    by_cases hau : (author != "") = true
    · simp [searchMessagesParams, hau] at hmem
    · simp [searchMessagesParams, hau] at hmem
  · intro hq hmem
    subst hq
    rw [show (searchMessagesRequest "" channel author limit).params
        = buildQueryParams (searchMessagesParams "" channel author limit) from rfl,
      mem_keys_buildQueryParams] at hmem
    obtain ⟨v, hvmem, hval⟩ := hmem
    by_cases hau : (author != "") = true
    all_goals simp [searchMessagesParams, hau] at hvmem
    all_goals rw [hvmem] at hval
    all_goals simp [JsVal.isValidParam] at hval
  · intro hq
    have hmem : ("q", JsVal.str q) ∈ searchMessagesParams q channel author limit := by
      simp [searchMessagesParams]
    have hval : (JsVal.str q).isValidParam = true := by
      simp [JsVal.isValidParam, hq]
    show ("q", q) ∈ buildQueryParams (searchMessagesParams q channel author limit)
    simp only [buildQueryParams, List.mem_map, List.mem_filter]
    exact ⟨("q", JsVal.str q), ⟨hmem, hval⟩, rfl⟩

/-- C4 witness: a nonempty q is present both in the params object and in
the final query string; an empty q is absent from the query string. -/
theorem q_param_asymmetry_witness :
    ("q", JsVal.str "hello") ∈ searchMessagesParams "hello" "" "" "50"
      ∧ ("q", "hello") ∈ (searchMessagesRequest "hello" "" "" "50").params
      ∧ "q" ∉ (searchMessagesRequest "" "" "" "50").params.map Prod.fst :=
  ⟨(q_param_asymmetry "hello" "" "" "50").1,
   (q_param_asymmetry "hello" "" "" "50").2.2.2 (by decide),
   (q_param_asymmetry "" "" "" "50").2.2.1 rfl⟩

/-- C6: the renderer prefers the canonical field name and falls back to
the alternate-language name (author/autor, channel/kanal,
content/inhalt), with the placeholder for author and channel and the
empty string for content when both names are missing; the scenario
record with author null, autor Alice and markup content renders author
Alice and the escaped literal content. -/
theorem renderCard_field_fallback (parseDate : String → Option String) (m : Msg) :
    (∀ v, m.author = some v → (renderCard parseDate m).author = escapeHTML v)
      ∧ (∀ v, m.author = none → m.autor = some v →
          (renderCard parseDate m).author = escapeHTML v)
      ∧ (m.author = none → m.autor = none →
          (renderCard parseDate m).author = escapeHTML "Unbekannt")
      ∧ (∀ v, m.channel = some v → (renderCard parseDate m).channel = escapeHTML v)
      ∧ (∀ v, m.channel = none → m.kanal = some v →
          (renderCard parseDate m).channel = escapeHTML v)
      ∧ (m.channel = none → m.kanal = none →
          (renderCard parseDate m).channel = escapeHTML "Unbekannt")
      ∧ (∀ v, m.content = some v → (renderCard parseDate m).content = escapeHTML v)
      ∧ (∀ v, m.content = none → m.inhalt = some v →
          (renderCard parseDate m).content = escapeHTML v)
      ∧ (m.content = none → m.inhalt = none →
          (renderCard parseDate m).content = escapeHTML "")
      ∧ (renderCard parseDate aliceRecord).author = "Alice"
      ∧ (renderCard parseDate aliceRecord).content = "&lt;b&gt;hi&lt;/b&gt;" := by
  refine ⟨?_, ?_, ?_, ?_, ?_, ?_, ?_, ?_, ?_, ?_, ?_⟩
  · intro v h; simp [renderCard, selectAuthor, h]
  · intro v h h2; simp [renderCard, selectAuthor, h, h2]
  · intro h h2; simp [renderCard, selectAuthor, h, h2]
  · intro v h; simp [renderCard, selectChannel, h]
  · intro v h h2; simp [renderCard, selectChannel, h, h2]
  · intro h h2; simp [renderCard, selectChannel, h, h2]
  · intro v h; simp [renderCard, selectContent, h]
  · intro v h h2; simp [renderCard, selectContent, h, h2]
  · intro h h2; simp [renderCard, selectContent, h, h2]
  · show escapeHTML (selectAuthor aliceRecord) = "Alice"
    decide
  · show escapeHTML (selectContent aliceRecord) = "&lt;b&gt;hi&lt;/b&gt;"
    decide

/-- C6 witness: the fallback clauses applied to the scenario record. -/
theorem renderCard_field_fallback_witness :
    (renderCard (fun _ => none) aliceRecord).author = escapeHTML "Alice"
      ∧ (renderCard (fun _ => none) aliceRecord).channel = escapeHTML "Unbekannt"
      ∧ (renderCard (fun _ => none) aliceRecord).content = escapeHTML "<b>hi</b>" :=
  ⟨(renderCard_field_fallback (fun _ => none) aliceRecord).2.1 "Alice" rfl rfl,
   (renderCard_field_fallback (fun _ => none) aliceRecord).2.2.2.2.2.1 rfl rfl,
   (renderCard_field_fallback (fun _ => none) aliceRecord).2.2.2.2.2.2.1
     "<b>hi</b>" rfl⟩

/-- C8: for any input order of date/count pairs whose dates have pairwise
distinct date values, the sorted time series handed to the time chart is
strictly ascending by date. -/
theorem sortTimeData_strict_ascending (dateVal : String → Int) (l : List DatedCount)
    (hdist : (l.map fun d => dateVal d.date).Pairwise (· ≠ ·)) :
    (sortTimeData dateVal l).Chain' fun a b => dateVal a.date < dateVal b.date := by
  have hsorted :
      List.Sorted (fun a b : DatedCount => dateVal a.date ≤ dateVal b.date)
        (sortTimeData dateVal l) := by
    haveI : IsTotal DatedCount (fun a b => dateVal a.date ≤ dateVal b.date) :=
      ⟨fun a b => le_total _ _⟩
    haveI : IsTrans DatedCount (fun a b => dateVal a.date ≤ dateVal b.date) :=
      ⟨fun _ _ _ h1 h2 => le_trans h1 h2⟩
    exact List.sorted_insertionSort _ l
  have hperm : List.Perm (sortTimeData dateVal l) l := List.perm_insertionSort _ l
  have hne0 : l.Pairwise (fun a b : DatedCount => dateVal a.date ≠ dateVal b.date) :=
    (List.pairwise_map).1 hdist
  have hne : (sortTimeData dateVal l).Pairwise
      (fun a b : DatedCount => dateVal a.date ≠ dateVal b.date) :=
    (hperm.pairwise_iff fun h => h.symm).2 hne0
  have hlt : (sortTimeData dateVal l).Pairwise
      (fun a b : DatedCount => dateVal a.date < dateVal b.date) :=
    (hsorted.and hne).imp fun h => lt_of_le_of_ne h.1 h.2
  exact hlt.chain'

/-- C8 witness: the three-date scenario in scrambled input order. -/
theorem sortTimeData_strict_ascending_witness :
    (([⟨"2024-01-03", 7⟩, ⟨"2024-01-01", 1⟩, ⟨"2024-01-02", 4⟩] : List DatedCount).map
        fun d => dateVal0 d.date).Pairwise (· ≠ ·)
      ∧ (sortTimeData dateVal0
          [⟨"2024-01-03", 7⟩, ⟨"2024-01-01", 1⟩, ⟨"2024-01-02", 4⟩]).Chain'
          fun a b => dateVal0 a.date < dateVal0 b.date :=
  ⟨by decide,
   sortTimeData_strict_ascending dateVal0
     [⟨"2024-01-03", 7⟩, ⟨"2024-01-01", 1⟩, ⟨"2024-01-02", 4⟩] (by decide)⟩

end Bilbot
